import Mathlib

/-!
# Verification of the Restaurant-Agent security and conversation layer

A shallow embedding of the security, moderation, conversation-memory,
language-detection and reservation-validation logic of `app_simple.py`,
together with theorems settling the specification claims about it.

Timestamps are modelled as natural numbers of seconds (Python uses
`time.time()` floats; all comparisons involved are order comparisons on
non-negative times, which the `Nat` model preserves).  Python dictionaries
keyed by strings are modelled as functions `String → α` (for
`defaultdict`) or `String → Option α` (for plain dicts, where key absence
matters).  External services (OpenAI completion, the OpenAI language
oracle, `json.loads`) appear as explicit parameters, so every theorem
quantifies over their behaviour unless a concrete fixture is needed.
-/

namespace RestaurantAgent

/-! ## String helpers: Python's `needle in haystack` substring check -/

/-- `startsWithChars n h` is true when `n` is an initial segment of `h`. -/
def startsWithChars : List Char → List Char → Bool
  | [], _ => true
  | _ :: _, [] => false
  | a :: as, b :: bs => a == b && startsWithChars as bs

/-- `containsSub n h` is true when `n` occurs contiguously inside `h`
(Python's `n in h` for strings; the empty needle always matches). -/
def containsSub (needle : List Char) : List Char → Bool
  | [] => needle.isEmpty
  | c :: t => startsWithChars needle (c :: t) || containsSub needle t

/-- Python `needle in hay` for strings. -/
def strContains (hay needle : String) : Bool :=
  containsSub needle.data hay.data

/-- Python `s.lower()` (ASCII case folding, which covers every configured
keyword). -/
def lowerStr (s : String) : String :=
  String.mk (s.data.map Char.toLower)

/-- Pointwise update of a string-keyed map. -/
def upd {α : Type} (f : String → α) (k : String) (v : α) : String → α :=
  fun x => if x = k then v else f x

/-! ## Security globals (`app_simple.py` lines 500–518)

`call_rate_limit = defaultdict(list)`, `blocked_numbers = set()`,
`moderation_flags = defaultdict(int)`, and the constants. -/

def MAX_CALLS_PER_HOUR : Nat := 5
def MAX_MODERATION_FLAGS : Nat := 3
def RESERVATION_COOLDOWN : Nat := 300

/-- The three security globals of `app_simple.py`. -/
structure SecState where
  callRateLimit : String → List Nat
  blockedNumbers : String → Bool
  moderationFlags : String → Nat

/-- The state at process start: empty window map, empty block set, zero flags. -/
def SecState.init : SecState :=
  { callRateLimit := fun _ => []
    blockedNumbers := fun _ => false
    moderationFlags := fun _ => 0 }

/-! ## `is_rate_limited` (`app_simple.py` lines 520–539)

Returns `True` immediately for a blocked number (state untouched);
otherwise writes back the trimmed window, returns `True` when the trimmed
window already has `MAX_CALLS_PER_HOUR` entries, and otherwise appends
`now` and returns `False`. -/

def is_rate_limited (s : SecState) (phone : String) (now : Nat) : Bool × SecState :=
  if s.blockedNumbers phone then
    (true, s)
  else
    let trimmed := (s.callRateLimit phone).filter (fun t => now - t < 3600)
    if MAX_CALLS_PER_HOUR ≤ trimmed.length then
      (true, { s with callRateLimit := upd s.callRateLimit phone trimmed })
    else
      (false, { s with callRateLimit := upd s.callRateLimit phone (trimmed ++ [now]) })

/-- Run `is_rate_limited` once per timestamp, collecting the verdicts. -/
def rateCalls (s : SecState) (phone : String) : List Nat → List Bool × SecState
  | [] => ([], s)
  | t :: ts =>
    let r := is_rate_limited s phone t
    let rest := rateCalls r.2 phone ts
    (r.1 :: rest.1, rest.2)

/-! ## Conversation history (`call_history = {}`, line 497)

Keyed by Twilio call SID in `handle_call` and `generate_ai_response`;
`moderate_content` looks it up under the caller's phone number. -/

inductive Role where
  | user
  | assistant
deriving DecidableEq, Repr

structure Msg where
  role : Role
  content : String
deriving DecidableEq, Repr

/-- `call_history`: a plain dict, so absence of a key is observable. -/
def HistMap : Type := String → Option (List Msg)

def updH (h : HistMap) (k : String) (v : List Msg) : HistMap :=
  fun x => if x = k then some v else h x

/-! ## Content-moderation keywords (`INAPPROPRIATE_KEYWORDS`, lines 507–512) -/

def INAPPROPRIATE_KEYWORDS : List (String × List String) :=
  [ ("profanity", ["fuck", "shit", "damn", "bitch", "asshole", "bastard"])
  , ("spam_indicators", ["test", "testing", "spam", "fake", "bot", "automated"])
  , ("malicious", ["hack", "attack", "virus", "scam", "fraud"])
  , ("inappropriate_names", ["hitler", "satan", "devil", "nazi"]) ]

/-- The inner double loop of `moderate_content`: the category of the first
keyword (in dict-insertion order) contained in the lowercased text. -/
def findKeywordIn (textLower : String) : List (String × List String) → Option String
  | [] => none
  | (cat, kws) :: rest =>
    if kws.any (fun k => strContains textLower k) then some cat
    else findKeywordIn textLower rest

def findKeywordMatch (textLower : String) : Option String :=
  findKeywordIn textLower INAPPROPRIATE_KEYWORDS

/-- Python `l[-n:]`. -/
def lastN {α : Type} (n : Nat) (l : List α) : List α :=
  l.drop (l.length - n)

/-- The spam condition of `moderate_content` lines 563–571 applied to a
stored message list: among the last 5 stored messages, the user messages
number at least 3 and are all identical (`len(set(...)) <= 1`). -/
def spamCond (msgs : List Msg) : Bool :=
  let recent := ((lastN 5 msgs).filter (fun m => m.role == Role.user)).map (fun m => m.content)
  3 ≤ recent.length && recent.dedup.length ≤ 1

/-! ## `moderate_content` (`app_simple.py` lines 541–574)

Returns `(is_safe, reason)` and the updated security state.  Keyword
match: increment the caller's flag counter, block and answer
`"account_blocked"` once the counter reaches `MAX_MODERATION_FLAGS`,
otherwise answer the category.  No keyword: the spam check runs against
`call_history[phone_number]` — the phone number, although the history
dict is keyed by call SID everywhere it is written. -/

def moderate_content (s : SecState) (hist : HistMap) (text phone : String) :
    (Bool × String) × SecState :=
  match findKeywordMatch (lowerStr text) with
  | some cat =>
    let flags := s.moderationFlags phone + 1
    let s1 := { s with moderationFlags := upd s.moderationFlags phone flags }
    if MAX_MODERATION_FLAGS ≤ flags then
      ((false, "account_blocked"),
       { s1 with blockedNumbers := upd s1.blockedNumbers phone true })
    else
      ((false, cat), s1)
  | none =>
    match hist phone with
    | some msgs =>
      if spamCond msgs then
        ((false, "spam_detected"),
         { s with moderationFlags := upd s.moderationFlags phone (s.moderationFlags phone + 1) })
      else
        ((true, ""), s)
    | none => ((true, ""), s)

/-! ## Language detection (`LANGUAGE_PATTERNS` lines 313–325,
`SUPPORTED_LANGUAGES` lines 297–310, `detect_language` lines 132–171)

The pattern phase counts pattern occurrences per language in dict order
and answers the first language with at least one match; otherwise the
OpenAI fallback (an oracle here) is consulted and its answer kept only
when it names a supported language, else `"en"`. -/

def LANGUAGE_PATTERNS : List (String × List String) :=
  [ ("es", ["hola", "buenos", "gracias", "por favor", "disculpe", "reserva", "mesa"])
  , ("fr", ["bonjour", "merci", "excusez", "réservation", "table", "restaurant"])
  , ("de", ["hallo", "danke", "entschuldigung", "reservierung", "tisch", "restaurant"])
  , ("it", ["ciao", "grazie", "scusi", "prenotazione", "tavolo", "ristorante"])
  , ("pt", ["olá", "obrigado", "desculpe", "reserva", "mesa", "restaurante"])
  , ("ru", ["привет", "спасибо", "извините", "бронирование", "столик"])
  , ("ja", ["こんにちは", "ありがとう", "すみません", "予約", "テーブル"])
  , ("ko", ["안녕하세요", "감사합니다", "죄송합니다", "예약", "테이블"])
  , ("zh", ["你好", "谢谢", "对不起", "预订", "桌子"])
  , ("hi", ["नमस्ते", "धन्यवाद", "माफ करें", "बुकिंग", "टेबल"])
  , ("ar", ["مرحبا", "شكرا", "عذرا", "حجز", "طاولة"]) ]

def SUPPORTED_LANGUAGE_CODES : List String :=
  ["en", "es", "fr", "de", "it", "pt", "ru", "ja", "ko", "zh", "hi", "ar"]

def detectByPatterns (textLower : String) : List (String × List String) → Option String
  | [] => none
  | (lang, pats) :: rest =>
    if 1 ≤ pats.countP (fun p => strContains textLower p) then some lang
    else detectByPatterns textLower rest

/-- `detect_language`, with the OpenAI fallback as an `oracle` parameter. -/
def detect_language (oracle : String → String) (text : String) : String :=
  match detectByPatterns (lowerStr text) LANGUAGE_PATTERNS with
  | some lang => lang
  | none =>
    let d := oracle text
    if SUPPORTED_LANGUAGE_CODES.contains d then d else "en"

/-- `call_languages = {}` (line 498): detected language per call SID. -/
def LangMap : Type := String → Option String

def updL (m : LangMap) (k : String) (v : String) : LangMap :=
  fun x => if x = k then some v else m x

/-- The language handling of `generate_ai_response` (lines 727–746): a
fresh detection every turn, stored under the call SID only when no
language is stored yet, and — as the code is written — the *fresh*
detection, not the stored one, is what is passed to
`create_multilingual_system_prompt`.  Returns
`(prompt language, updated call_languages)`. -/
def gen_lang_step (oracle : String → String) (langs : LangMap) (callSid text : String) :
    String × LangMap :=
  let det := detect_language oracle text
  let langs' := match langs callSid with
    | none => updL langs callSid det
    | some _ => langs
  (det, langs')

/-! ## Conversation-history update of `generate_ai_response`
(lines 736–743 and 806–813)

On success: append the user message, trim to the last 10 when longer,
append the assistant message, store.  The trimmed list (plus the system
prompt) is what is sent to the completion service.  On an exception from
the completion call, the function returns the apology string — but the
user message was already appended *in place* to the stored list, and the
trim only rebound the local name, so the stored history keeps the
untrimmed `old ++ [user]`. -/

def gen_hist_trimmed (hist : List Msg) (userMsg : String) : List Msg :=
  let h1 := hist ++ [⟨Role.user, userMsg⟩]
  if 10 < h1.length then lastN 10 h1 else h1

def gen_hist_update (hist : List Msg) (userMsg aiMsg : String) : List Msg :=
  gen_hist_trimmed hist userMsg ++ [⟨Role.assistant, aiMsg⟩]

/-- One `generate_ai_response` turn's effect on `call_history`;
`aiResult = none` models an exception from the completion call. -/
def generate_ai_response (histMap : HistMap) (callSid userMsg : String)
    (aiResult : Option String) : String × HistMap :=
  let hist := (histMap callSid).getD []
  match aiResult with
  | some ai => (ai, updH histMap callSid (gen_hist_update hist userMsg ai))
  | none =>
    ("I'm sorry, I'm experiencing technical difficulties. Please call back later.",
     updH histMap callSid (hist ++ [⟨Role.user, userMsg⟩]))

/-- Iterate successful turns (each `(userMsg, aiMsg)`) on `call_history`. -/
def runTurns (histMap : HistMap) (callSid : String) : List (String × String) → HistMap
  | [] => histMap
  | (u, a) :: rest => runTurns (generate_ai_response histMap callSid u (some a)).2 callSid rest

/-- The history map after three turns of the same utterance on call SID
`"CA8"` whose completion calls raised: each failed turn appends only the
user message (the in-place append precedes the exception), leaving three
identical stored user messages. -/
def threeIdenticalTurns : HistMap :=
  (generate_ai_response
    ((generate_ai_response
      ((generate_ai_response (fun _ => none) "CA8" "hello there" none).2)
      "CA8" "hello there" none).2)
    "CA8" "hello there" none).2

/-! ## Python values and the `analyze_interaction` extraction
(`app_simple.py` lines 821–874)

`JVal` models the values `json.loads` can produce.  Python's `k in v`,
`v.get(k, d)`, `v[k]`, `v.lower()` and truthiness are modelled as
partial operations that raise (`Except.error`) exactly where Python
raises `TypeError`/`AttributeError`. -/

inductive JVal where
  | jnull
  | jbool (b : Bool)
  | jnum (n : Int)
  | jstr (s : String)
  | jarr (xs : List JVal)
  | jobj (kvs : List (String × JVal))
deriving Repr

/-- First binding of a key in an object (Python dicts have unique keys). -/
def lookupKey (k : String) : List (String × JVal) → Option JVal
  | [] => none
  | (k', v) :: rest => if k' = k then some v else lookupKey k rest

/-- Python `k in v` for a string key `k`: dict-key lookup on a dict,
substring on a string, element equality on a list, `TypeError` otherwise. -/
def hasKey (v : JVal) (k : String) : Except String Bool :=
  match v with
  | .jobj kvs => .ok (lookupKey k kvs).isSome
  | .jstr s => .ok (strContains s k)
  | .jarr xs => .ok (xs.any (fun x => match x with | .jstr s => s = k | _ => false))
  | _ => .error "TypeError"

/-- Python `v[k]` for a string key: only dicts support it. -/
def getItem (v : JVal) (k : String) : Except String JVal :=
  match v with
  | .jobj kvs =>
    match lookupKey k kvs with
    | some x => .ok x
    | none => .error "KeyError"
  | _ => .error "TypeError"

/-- Python `v.get(k, d)`: a dict method; anything else raises
`AttributeError`. -/
def pyGet (v : JVal) (k : String) (d : JVal) : Except String JVal :=
  match v with
  | .jobj kvs => .ok ((lookupKey k kvs).getD d)
  | _ => .error "AttributeError"

/-- Python `v.lower()`: a string method; anything else (in particular
`None`) raises `AttributeError`. -/
def pyLower (v : JVal) : Except String String :=
  match v with
  | .jstr s => .ok (lowerStr s)
  | _ => .error "AttributeError"

/-- Python truthiness of a parsed value. -/
def truthy : JVal → Bool
  | .jnull => false
  | .jbool b => b
  | .jnum n => n != 0
  | .jstr s => !s.isEmpty
  | .jarr xs => !xs.isEmpty
  | .jobj kvs => !kvs.isEmpty

/-- Index of the first occurrence of `c` (Python `raw.find(c)`). -/
def findChar (c : Char) : List Char → Option Nat
  | [] => none
  | a :: t => if a == c then some 0 else (findChar c t).map (· + 1)

/-- Index of the last occurrence of `c` (Python `raw.rfind(c)`). -/
def rfindChar (c : Char) (l : List Char) : Option Nat :=
  (findChar c l.reverse).map (fun i => l.length - 1 - i)

/-- The opening-brace character (written by code to satisfy tooling). -/
def obrace : Char := '\x7b'

/-- The closing-brace character. -/
def cbrace : Char := '\x7d'

/-- Lines 869–872: `start = raw.find(obrace)`, `end = raw.rfind(cbrace)`,
and when both exist `raw = raw[start : end + 1]` (otherwise `raw` is
kept). -/
def extractSpan (raw : String) : String :=
  let l := raw.data
  match findChar obrace l, rfindChar cbrace l with
  | some s, some e => String.mk ((l.take (e + 1)).drop s)
  | _, _ => raw

/-- The fallback draft returned on any analyzer failure. -/
def emptyDraft : JVal :=
  .jobj [ ("reservation_complete", .jbool false)
        , ("sms_consent", .jstr "unknown")
        , ("details", .jobj []) ]

/-- `analyze_interaction`, lines 853–874, from the (stripped) raw
completion text onwards; `parse` stands for `json.loads`, returning
`none` where it raises.  Every exception inside the `try` — a parse
failure, a `TypeError` from the membership check on a non-container, or
the `ValueError("missing keys")` — is caught and yields `emptyDraft`. -/
def analyze_interaction (parse : String → Option JVal) (raw : String) : JVal :=
  let r := extractSpan raw
  match parse r with
  | none => emptyDraft
  | some parsed =>
    match hasKey parsed "reservation_complete", hasKey parsed "sms_consent" with
    | .ok true, .ok true => parsed
    | _, _ => emptyDraft

/-- Modelled from the external dependency `json.loads`, restricted to
simple JSON string literals: a double-quoted text containing no inner
quote and no backslash parses to that string; everything else is treated
as a parse failure.  (Python's `json.loads` behaves exactly this way on
such inputs.) -/
def parseStringLit (s : String) : Option JVal :=
  match s.data with
  | '"' :: rest =>
    if rest.getLast? = some '"' ∧ '"' ∉ rest.dropLast ∧ '\\' ∉ rest.dropLast then
      some (.jstr (String.mk rest.dropLast))
    else none
  | _ => none

/-- The analyzer completion text used by the exception counterexample: a
reservation declared complete whose extracted name is JSON `null`, as the
extraction prompt prescribes for unknown fields. -/
def ANALYZER_RAW_NULL_NAME : String :=
  "\x7b\"reservation_complete\": true, \"sms_consent\": \"yes\", \"details\": \x7b\"name\": null\x7d\x7d"

/-- Modelled from the external dependency `json.loads`, at the single
fixture `ANALYZER_RAW_NULL_NAME` (on which Python's `json.loads` returns
exactly this dictionary); every other input is treated as a parse
failure. -/
def parseFixture : String → Option JVal := fun s =>
  if s = ANALYZER_RAW_NULL_NAME then
    some (.jobj [ ("reservation_complete", .jbool true)
                , ("sms_consent", .jstr "yes")
                , ("details", .jobj [("name", .jnull)]) ])
  else none

/-! ## `validate_reservation_data` (`app_simple.py` lines 576–597)

`reservation_state` (line 499) is modelled as the caller's
`last_reservation_time` when present.  The name check runs
`data['name'].lower()` whenever the key `'name'` is present — including
when its value is `null`, where `.lower()` raises `AttributeError`. -/

def ResMap : Type := String → Option Nat

def inappropriateNameKeywords : List String :=
  (INAPPROPRIATE_KEYWORDS.lookup "inappropriate_names").getD []

def validate_reservation_data (data : JVal) (resSt : ResMap) (phone : String) (now : Nat) :
    Except String (Bool × String) := do
  let hasName ← hasKey data "name"
  let nameVerdict ←
    if hasName then do
      let nv ← getItem data "name"
      let nameLower ← pyLower nv
      pure (if inappropriateNameKeywords.any (fun k => strContains nameLower k) then
              some (false, "inappropriate_name")
            else none)
    else
      pure none
  match nameVerdict with
  | some r => pure r
  | none =>
    match resSt phone with
    | some lastRes =>
      if now - lastRes < RESERVATION_COOLDOWN then pure (false, "too_frequent")
      else pure (true, "")
    | none => pure (true, "")

/-- The reservation branch of `process_speech` (lines 1020–1047):
validate, and only on success write `last_reservation_time = now` for the
caller. -/
def reservation_step (resSt : ResMap) (data : JVal) (phone : String) (now : Nat) :
    Except String ((Bool × String) × ResMap) := do
  let vr ← validate_reservation_data data resSt phone now
  if vr.1 then
    pure (vr, fun x => if x = phone then some now else resSt x)
  else
    pure (vr, resSt)

/-! ## `unblock_number` (`app_simple.py` lines 1167–1182) -/

def unblock_number (s : SecState) (phone : String) : SecState × String :=
  if phone = "" then
    (s, "error: phone_number required")
  else if s.blockedNumbers phone then
    ({ s with blockedNumbers := upd s.blockedNumbers phone false
            , moderationFlags := upd s.moderationFlags phone 0 },
     "unblocked")
  else
    (s, "was not blocked")

/-! ## `handle_call` (`app_simple.py` lines 918–955)

The inbound-call webhook: log the call start, then the rate-limit gate.
A rejected call gets the apology TwiML and `<Hangup/>`; neither branch of
`handle_call` invokes the completion or TTS services (those live in
`process_speech`). -/

inductive Effect where
  | logStart
  | completion
  | tts
deriving DecidableEq, Repr

structure Twiml where
  say : List String
  gather : Bool
  hangup : Bool
deriving DecidableEq, Repr

def RATE_LIMIT_SAY : String :=
  "I'm sorry, but you have exceeded the maximum number of calls allowed. Please try again later."

def GREETING_SAY : String :=
  "Thank you for calling Bella Vista Italian Restaurant! I'm your AI assistant. How can I help you today?"

structure HandleResult where
  twiml : Twiml
  effects : List Effect
  sec : SecState
  hist : HistMap

def handle_call (sec : SecState) (hist : HistMap) (callSid fromNum : String) (now : Nat) :
    HandleResult :=
  let r := is_rate_limited sec fromNum now
  if r.1 then
    { twiml := { say := [RATE_LIMIT_SAY], gather := false, hangup := true }
      effects := [.logStart]
      sec := r.2
      hist := hist }
  else
    { twiml := { say := [GREETING_SAY], gather := true, hangup := true }
      effects := [.logStart]
      sec := r.2
      hist := match hist callSid with
        | none => updH hist callSid []
        | some _ => hist }

/-! ## `process_speech` (`app_simple.py` lines 957–1075)

The per-turn webhook.  Inputs beyond the request parameters: the
language-detection fallback `langOracle`, the completion result
`aiResult` (`none` = the OpenAI call raised, caught inside
`generate_ai_response`), the analyzer's raw completion text
`analysisRaw` with `parse` standing for `json.loads`.  The recognition
confidence is carried in hundredths (`0.95` as `95`): its only use is
the order comparison `float(confidence) < 0.5`, which the scaled
integers preserve.

The body has no `try`/`except` of its own, so an exception raised by
`analysis.get`, by `reservation_data` access or inside
`validate_reservation_data` escapes to the framework as a 500 — modelled
by `Except.error`. -/

structure SysState where
  sec : SecState
  hist : HistMap
  langs : LangMap
  resSt : ResMap

def BLOCKED_SAY : String :=
  "I'm sorry, but this number has been blocked due to repeated policy violations. Goodbye."

def POLICY_SAY : String :=
  "I'm sorry, but I can't process that request. Please keep our conversation professional and appropriate."

def CLARIFY_SAY : String :=
  "I'm sorry, I didn't catch that. Could you please repeat what you said?"

def NAME_ERROR_SAY : String :=
  "I'm sorry, but I cannot process a reservation with that name. Please provide a different name."

def FREQ_ERROR_SAY : String :=
  "I notice you just made a reservation recently. Please wait a few minutes before making another reservation."

def GENERIC_ERROR_SAY : String :=
  "I'm sorry, but I cannot process this reservation at the moment. Please try again later."

def GOODBYE_SAY : String :=
  "Thank you for choosing Bella Vista Italian Restaurant. Have a great day!"

def process_speech (st : SysState) (callSid fromNum speech : String) (confPct : Nat)
    (langOracle : String → String) (aiResult : Option String)
    (parse : String → Option JVal) (analysisRaw : String) (now : Nat) :
    Except String (Twiml × SysState) := do
  -- Content moderation check (lines 972–992)
  let mr := moderate_content st.sec st.hist speech fromNum
  let sec' := mr.2
  if !mr.1.1 then
    if mr.1.2 = "account_blocked" then
      return ({ say := [BLOCKED_SAY], gather := false, hangup := true },
              { st with sec := sec' })
    else
      return ({ say := [POLICY_SAY], gather := true, hangup := true },
              { st with sec := sec' })
  else
  -- Low confidence / empty speech (lines 995–1005)
  if speech = "" || confPct < 50 then
    return ({ say := [CLARIFY_SAY], gather := true, hangup := true },
            { st with sec := sec' })
  else do
    -- generate_ai_response: language step (727–746) and history step (736–813)
    let lg := gen_lang_step langOracle st.langs callSid speech
    let g := generate_ai_response st.hist callSid speech aiResult
    let aiMsg := g.1
    let st1 : SysState := { st with sec := sec', hist := g.2, langs := lg.2 }
    -- analyze_interaction is total: every exception inside it is caught
    let analysis := analyze_interaction parse analysisRaw
    -- text_to_speech (875–896) never raises; Twilio speaks the text
    -- Reservation completion branch (lines 1020–1061)
    let rc ← pyGet analysis "reservation_complete" (.jbool false)
    if truthy rc then do
      let data ← pyGet analysis "details" (.jobj [])
      let vr ← reservation_step st1.resSt data fromNum now
      if vr.1.1 then
        return ({ say := [aiMsg, GOODBYE_SAY], gather := false, hangup := true },
                { st1 with resSt := vr.2 })
      else
        let errSay :=
          if vr.1.2 = "inappropriate_name" then NAME_ERROR_SAY
          else if vr.1.2 = "too_frequent" then FREQ_ERROR_SAY
          else GENERIC_ERROR_SAY
        return ({ say := [errSay], gather := true, hangup := true }, st1)
    else
      return ({ say := [aiMsg], gather := true, hangup := true }, st1)

/-- The category dictionary's insertion order, as an explicit list. -/
def CATEGORY_ORDER : List String :=
  ["profanity", "spam_indicators", "malicious", "inappropriate_names"]

/-- Whether any keyword of the named category occurs in the text. -/
def categoryMatches (textLower cat : String) : Bool :=
  ((INAPPROPRIATE_KEYWORDS.lookup cat).getD []).any (fun k => strContains textLower k)

/-! # Theorems -/

/-! ## Rate limiting (claim C1) -/

theorem upd_same {α : Type} (f : String → α) (k : String) (v : α) : upd f k v k = v := by
  simp [upd]

theorem filter_within (now : Nat) (l : List Nat) (h : ∀ t ∈ l, now - t < 3600) :
    l.filter (fun t => now - t < 3600) = l := by
  induction l with
  | nil => rfl
  | cons a l ih =>
    have ha : now - a < 3600 := h a (by simp)
    have hrest : ∀ t ∈ l, now - t < 3600 := fun t ht => h t (by simp [ht])
    simp [List.filter_cons, ha, ih hrest]

/-- One allowed call: not blocked, the whole window survives the trim, and
the window is below the threshold. -/
theorem rate_step_allowed (s : SecState) (phone : String) (now : Nat)
    (hnb : s.blockedNumbers phone = false)
    (hfilter : (s.callRateLimit phone).filter (fun t => now - t < 3600) = s.callRateLimit phone)
    (hlen : (s.callRateLimit phone).length < 5) :
    is_rate_limited s phone now =
      (false, { s with callRateLimit := upd s.callRateLimit phone (s.callRateLimit phone ++ [now]) }) := by
  unfold is_rate_limited
  rw [hnb]
  simp only [Bool.false_eq_true, if_false, hfilter, MAX_CALLS_PER_HOUR]
  rw [if_neg (by omega)]

/-- One rejected call: not blocked, the whole window survives the trim, and
the window has reached the threshold; the trimmed window is written back
but `now` is not appended. -/
theorem rate_step_rejected (s : SecState) (phone : String) (now : Nat)
    (hnb : s.blockedNumbers phone = false)
    (hfilter : (s.callRateLimit phone).filter (fun t => now - t < 3600) = s.callRateLimit phone)
    (hlen : 5 ≤ (s.callRateLimit phone).length) :
    is_rate_limited s phone now =
      (true, { s with callRateLimit := upd s.callRateLimit phone (s.callRateLimit phone) }) := by
  unfold is_rate_limited
  rw [hnb]
  simp only [Bool.false_eq_true, if_false, hfilter, MAX_CALLS_PER_HOUR]
  rw [if_pos (by omega)]

/-- Any run of calls that all fit in one window and keep the caller's
window below the threshold is fully allowed, and just appends the
timestamps. -/
theorem rateCalls_allows (phone : String) (ts : List Nat) (s : SecState)
    (hnb : s.blockedNumbers phone = false)
    (hw1 : ∀ x ∈ s.callRateLimit phone, ∀ y ∈ ts, y - x < 3600)
    (hw2 : ∀ x ∈ ts, ∀ y ∈ ts, y - x < 3600)
    (hlen : (s.callRateLimit phone).length + ts.length ≤ 5) :
    (rateCalls s phone ts).1 = ts.map (fun _ => false) ∧
    (rateCalls s phone ts).2.callRateLimit phone = s.callRateLimit phone ++ ts ∧
    (rateCalls s phone ts).2.blockedNumbers = s.blockedNumbers ∧
    (rateCalls s phone ts).2.moderationFlags = s.moderationFlags := by
  induction ts generalizing s with
  | nil => simp [rateCalls]
  | cons t ts ih =>
    have hstep : is_rate_limited s phone t =
        (false, { s with callRateLimit := upd s.callRateLimit phone (s.callRateLimit phone ++ [t]) }) := by
      apply rate_step_allowed s phone t hnb
      · exact filter_within t _ (fun x hx => hw1 x hx t (by simp))
      · simp at hlen; omega
    set s' : SecState :=
      { s with callRateLimit := upd s.callRateLimit phone (s.callRateLimit phone ++ [t]) } with hs'
    have hw' : s'.callRateLimit phone = s.callRateLimit phone ++ [t] := by
      rw [hs']; exact upd_same ..
    have ihr := ih s' (by rw [hs']; exact hnb)
      (by
        intro x hx y hy
        rw [hw'] at hx
        rcases List.mem_append.mp hx with hx | hx
        · exact hw1 x hx y (by simp [hy])
        · simp at hx
          exact hw2 x (by simp [hx]) y (by simp [hy]))
      (fun x hx y hy => hw2 x (by simp [hx]) y (by simp [hy]))
      (by rw [hw']; simp at hlen ⊢; omega)
    refine ⟨?_, ?_, ?_, ?_⟩
    · simp only [rateCalls, hstep, ihr.1, List.map_cons]
    · simp only [rateCalls, hstep]
      rw [ihr.2.1, hw', List.append_assoc]
      rfl
    · simp only [rateCalls, hstep]
      rw [ihr.2.2.1]
    · simp only [rateCalls, hstep]
      rw [ihr.2.2.2]

/-- C1: for a caller outside the block set with an empty window, the first
5 calls whose timestamps lie within one sliding hour are all allowed, and
the 6th call within that window is rejected: `handle_call` answers the
rate-limit apology with Hangup, invoking neither the completion nor the
TTS service; and a caller in the block set is rejected with the security
state — in particular the window — completely unchanged. -/
theorem C1_rate_limit_window (s : SecState) (hist : HistMap) (phone callSid : String)
    (t1 t2 t3 t4 t5 t6 : Nat)
    (hnb : s.blockedNumbers phone = false)
    (hw0 : s.callRateLimit phone = [])
    (h12 : t1 ≤ t2) (h23 : t2 ≤ t3) (h34 : t3 ≤ t4) (h45 : t4 ≤ t5) (h56 : t5 ≤ t6)
    (hwin : t6 - t1 < 3600) :
    (rateCalls s phone [t1, t2, t3, t4, t5]).1 = [false, false, false, false, false] ∧
    (is_rate_limited (rateCalls s phone [t1, t2, t3, t4, t5]).2 phone t6).1 = true ∧
    (handle_call (rateCalls s phone [t1, t2, t3, t4, t5]).2 hist callSid phone t6).twiml =
      { say := [RATE_LIMIT_SAY], gather := false, hangup := true } ∧
    Effect.completion ∉ (handle_call (rateCalls s phone [t1, t2, t3, t4, t5]).2 hist callSid phone t6).effects ∧
    Effect.tts ∉ (handle_call (rateCalls s phone [t1, t2, t3, t4, t5]).2 hist callSid phone t6).effects ∧
    (∀ s' p n, s'.blockedNumbers p = true → is_rate_limited s' p n = (true, s')) := by
  have hall := rateCalls_allows phone [t1, t2, t3, t4, t5] s hnb
    (by rw [hw0]; intro x hx; simp at hx)
    (by
      intro x hx y hy
      simp at hx hy
      rcases hx with rfl | rfl | rfl | rfl | rfl <;>
        rcases hy with rfl | rfl | rfl | rfl | rfl <;> omega)
    (by rw [hw0]; simp)
  have hw5 : (rateCalls s phone [t1, t2, t3, t4, t5]).2.callRateLimit phone
      = [t1, t2, t3, t4, t5] := by
    rw [hall.2.1, hw0]; rfl
  have hnb5 : (rateCalls s phone [t1, t2, t3, t4, t5]).2.blockedNumbers phone = false := by
    rw [hall.2.2.1]; exact hnb
  have hreject := rate_step_rejected (rateCalls s phone [t1, t2, t3, t4, t5]).2 phone t6 hnb5
    (by
      rw [hw5]
      apply filter_within
      intro x hx
      simp at hx
      rcases hx with rfl | rfl | rfl | rfl | rfl <;> omega)
    (by rw [hw5]; simp)
  refine ⟨hall.1, by rw [hreject], ?_, ?_, ?_, ?_⟩
  · unfold handle_call
    rw [hreject]
    simp
  · unfold handle_call
    rw [hreject]
    simp
  · unfold handle_call
    rw [hreject]
    simp
  · intro s' p n hb
    unfold is_rate_limited
    rw [hb]
    simp

/-- C1 witness: six calls one second apart from a fresh caller on the
initial state — the first five allowed, the sixth rejected with the
rate-limit TwiML, no downstream effect, and blocked callers short-circuit. -/
theorem C1_rate_limit_window_witness :
    SecState.init.blockedNumbers "+15550001" = false ∧
    ((rateCalls SecState.init "+15550001" [10, 11, 12, 13, 14]).1 = [false, false, false, false, false] ∧
     (is_rate_limited (rateCalls SecState.init "+15550001" [10, 11, 12, 13, 14]).2 "+15550001" 15).1 = true ∧
     (handle_call (rateCalls SecState.init "+15550001" [10, 11, 12, 13, 14]).2 (fun _ => none) "CA1" "+15550001" 15).twiml =
       { say := [RATE_LIMIT_SAY], gather := false, hangup := true } ∧
     Effect.completion ∉ (handle_call (rateCalls SecState.init "+15550001" [10, 11, 12, 13, 14]).2 (fun _ => none) "CA1" "+15550001" 15).effects ∧
     Effect.tts ∉ (handle_call (rateCalls SecState.init "+15550001" [10, 11, 12, 13, 14]).2 (fun _ => none) "CA1" "+15550001" 15).effects ∧
     (∀ s' p n, s'.blockedNumbers p = true → is_rate_limited s' p n = (true, s'))) :=
  ⟨rfl, C1_rate_limit_window SecState.init (fun _ => none) "+15550001" "CA1" 10 11 12 13 14 15
    rfl rfl (by decide) (by decide) (by decide) (by decide) (by decide) (by decide)⟩

/-! ## Content moderation (claims C2 and C10) -/

/-- A keyword match at flag threshold: the caller is blocked and the
reason is `"account_blocked"`. -/
theorem moderate_keyword_blocked (s : SecState) (hist : HistMap) (text phone cat : String)
    (hmatch : findKeywordMatch (lowerStr text) = some cat)
    (h : MAX_MODERATION_FLAGS ≤ s.moderationFlags phone + 1) :
    moderate_content s hist text phone =
      ((false, "account_blocked"),
       { callRateLimit := s.callRateLimit
         blockedNumbers := upd s.blockedNumbers phone true
         moderationFlags := upd s.moderationFlags phone (s.moderationFlags phone + 1) }) := by
  unfold moderate_content
  rw [hmatch]
  simp only []
  rw [if_pos h]

/-- A keyword match below the flag threshold: the reason is the matched
category and only the flag counter changes. -/
theorem moderate_keyword_flagged (s : SecState) (hist : HistMap) (text phone cat : String)
    (hmatch : findKeywordMatch (lowerStr text) = some cat)
    (h : s.moderationFlags phone + 1 < MAX_MODERATION_FLAGS) :
    moderate_content s hist text phone =
      ((false, cat),
       { callRateLimit := s.callRateLimit
         blockedNumbers := s.blockedNumbers
         moderationFlags := upd s.moderationFlags phone (s.moderationFlags phone + 1) }) := by
  unfold moderate_content
  rw [hmatch]
  simp only []
  rw [if_neg (by omega)]

/-- C2: a text containing a configured keyword is flagged: the result is
unsafe and the caller's counter goes up by one; below the threshold the
reported reason is the matched category and the block set is untouched;
at the threshold (3rd flag) the caller enters the permanent block set,
the reason is `"account_blocked"`, and every later call is rejected by
`is_rate_limited` regardless of content. -/
theorem C2_keyword_moderation (s : SecState) (hist : HistMap) (text phone cat : String)
    (hmatch : findKeywordMatch (lowerStr text) = some cat) :
    (moderate_content s hist text phone).1.1 = false ∧
    (moderate_content s hist text phone).2.moderationFlags phone = s.moderationFlags phone + 1 ∧
    (s.moderationFlags phone + 1 < MAX_MODERATION_FLAGS →
      (moderate_content s hist text phone).1.2 = cat ∧
      (moderate_content s hist text phone).2.blockedNumbers = s.blockedNumbers) ∧
    (MAX_MODERATION_FLAGS ≤ s.moderationFlags phone + 1 →
      (moderate_content s hist text phone).1.2 = "account_blocked" ∧
      (moderate_content s hist text phone).2.blockedNumbers phone = true ∧
      ∀ now, (is_rate_limited (moderate_content s hist text phone).2 phone now).1 = true) := by
  by_cases h : MAX_MODERATION_FLAGS ≤ s.moderationFlags phone + 1
  · rw [moderate_keyword_blocked s hist text phone cat hmatch h]
    refine ⟨rfl, by simp [upd], fun hlt => absurd h (by omega), fun _ => ⟨rfl, by simp [upd], ?_⟩⟩
    intro now
    unfold is_rate_limited
    simp [upd]
  · rw [moderate_keyword_flagged s hist text phone cat hmatch (by omega)]
    exact ⟨rfl, by simp [upd], fun _ => ⟨rfl, rfl⟩, fun hge => absurd hge h⟩

/-- C2 witness: the caller's third profanity flag, starting from two
flags, blocks the number and rejects the next call. -/
theorem C2_keyword_moderation_witness :
    findKeywordMatch (lowerStr "oh Shit sorry") = some "profanity" ∧
    ((moderate_content SecState.init (fun _ => none) "oh Shit sorry" "+15550002").1.1 = false ∧
     (moderate_content SecState.init (fun _ => none) "oh Shit sorry" "+15550002").2.moderationFlags "+15550002" =
       SecState.init.moderationFlags "+15550002" + 1 ∧
     (SecState.init.moderationFlags "+15550002" + 1 < MAX_MODERATION_FLAGS →
       (moderate_content SecState.init (fun _ => none) "oh Shit sorry" "+15550002").1.2 = "profanity" ∧
       (moderate_content SecState.init (fun _ => none) "oh Shit sorry" "+15550002").2.blockedNumbers =
         SecState.init.blockedNumbers) ∧
     (MAX_MODERATION_FLAGS ≤ SecState.init.moderationFlags "+15550002" + 1 →
       (moderate_content SecState.init (fun _ => none) "oh Shit sorry" "+15550002").1.2 = "account_blocked" ∧
       (moderate_content SecState.init (fun _ => none) "oh Shit sorry" "+15550002").2.blockedNumbers "+15550002" = true ∧
       ∀ now, (is_rate_limited (moderate_content SecState.init (fun _ => none) "oh Shit sorry" "+15550002").2 "+15550002" now).1 = true)) :=
  ⟨by decide, C2_keyword_moderation SecState.init (fun _ => none) "oh Shit sorry" "+15550002" "profanity" (by decide)⟩

/-- The keyword loop answers exactly the first matching category in the
fixed dictionary order. -/
theorem findKeywordMatch_eq_find (lt : String) :
    findKeywordMatch lt = CATEGORY_ORDER.find? (fun c => categoryMatches lt c) := by
  have k1 : categoryMatches lt "profanity"
      = (["fuck", "shit", "damn", "bitch", "asshole", "bastard"] : List String).any
          (fun k => strContains lt k) := rfl
  have k2 : categoryMatches lt "spam_indicators"
      = (["test", "testing", "spam", "fake", "bot", "automated"] : List String).any
          (fun k => strContains lt k) := rfl
  have k3 : categoryMatches lt "malicious"
      = (["hack", "attack", "virus", "scam", "fraud"] : List String).any
          (fun k => strContains lt k) := rfl
  have k4 : categoryMatches lt "inappropriate_names"
      = (["hitler", "satan", "devil", "nazi"] : List String).any
          (fun k => strContains lt k) := rfl
  cases h1 : (["fuck", "shit", "damn", "bitch", "asshole", "bastard"] : List String).any
      (fun k => strContains lt k) <;>
  cases h2 : (["test", "testing", "spam", "fake", "bot", "automated"] : List String).any
      (fun k => strContains lt k) <;>
  cases h3 : (["hack", "attack", "virus", "scam", "fraud"] : List String).any
      (fun k => strContains lt k) <;>
  cases h4 : (["hitler", "satan", "devil", "nazi"] : List String).any
      (fun k => strContains lt k) <;>
    simp [findKeywordMatch, findKeywordIn, INAPPROPRIATE_KEYWORDS, CATEGORY_ORDER,
      List.find?, k1, k2, k3, k4, h1, h2, h3, h4]

theorem find?_mem_some {α : Type} (p : α → Bool) :
    ∀ (l : List α) (c : α), c ∈ l → p c = true → ∃ d, l.find? p = some d := by
  intro l
  induction l with
  | nil => intro c hc _; simp at hc
  | cons a l ih =>
    intro c hc hp
    cases hpa : p a with
    | true => exact ⟨a, by simp [List.find?, hpa]⟩
    | false =>
      rcases List.mem_cons.mp hc with rfl | hc'
      · rw [hpa] at hp; cases hp
      · obtain ⟨d, hd⟩ := ih c hc' hp
        exact ⟨d, by simp [List.find?, hpa, hd]⟩

/-- C10 counterexample: for a caller already carrying 2 flags, a text
matching the profanity category is answered `"account_blocked"`, not the
first matching category `"profanity"` the claim announces. -/
theorem C10_counterexample :
    findKeywordMatch (lowerStr "fuck hack") = some "profanity" ∧
    (moderate_content
        { callRateLimit := fun _ => []
          blockedNumbers := fun _ => false
          moderationFlags := fun p => if p = "+15550003" then 2 else 0 }
        (fun _ => none) "fuck hack" "+15550003").1.2 = "account_blocked" ∧
    (moderate_content
        { callRateLimit := fun _ => []
          blockedNumbers := fun _ => false
          moderationFlags := fun p => if p = "+15550003" then 2 else 0 }
        (fun _ => none) "fuck hack" "+15550003").1.2 ≠ "profanity" := by
  refine ⟨by decide, by decide, by decide⟩

/-- C10 (amended): one invocation of `moderate_content` moves the
caller's flag counter by at most 1 (it stays or goes up by one), on every
path; and when the updated counter is still below the block threshold,
the reported reason for a keyword match is exactly the first matching
category in the fixed order profanity, spam_indicators, malicious,
inappropriate_names (at the threshold the reason is `"account_blocked"`
instead, as the counterexample shows). -/
theorem C10_single_increment_first_category (s : SecState) (hist : HistMap) (text phone : String) :
    ((moderate_content s hist text phone).2.moderationFlags phone = s.moderationFlags phone ∨
     (moderate_content s hist text phone).2.moderationFlags phone = s.moderationFlags phone + 1) ∧
    (∀ c, c ∈ CATEGORY_ORDER → categoryMatches (lowerStr text) c = true →
      s.moderationFlags phone + 1 < MAX_MODERATION_FLAGS →
      CATEGORY_ORDER.find? (fun c => categoryMatches (lowerStr text) c)
        = some (moderate_content s hist text phone).1.2) := by
  constructor
  · cases hfk : findKeywordMatch (lowerStr text) with
    | some cat =>
      by_cases h : MAX_MODERATION_FLAGS ≤ s.moderationFlags phone + 1
      · rw [moderate_keyword_blocked s hist text phone cat hfk h]
        right; simp [upd]
      · rw [moderate_keyword_flagged s hist text phone cat hfk (by omega)]
        right; simp [upd]
    | none =>
      unfold moderate_content
      rw [hfk]
      cases hh : hist phone with
      | some msgs =>
        simp only []
        by_cases hs : spamCond msgs
        · rw [if_pos hs]; right; simp [upd]
        · rw [if_neg hs]; left; rfl
      | none => left; rfl
  · intro c hc hm hflags
    obtain ⟨d, hd⟩ := find?_mem_some (fun c => categoryMatches (lowerStr text) c) CATEGORY_ORDER c hc hm
    have hfk : findKeywordMatch (lowerStr text) = some d := by
      rw [findKeywordMatch_eq_find]; exact hd
    rw [moderate_keyword_flagged s hist text phone d hfk (by omega), hd]

/-- C10 witness: a clean caller saying a text matching both the
spam_indicators and malicious categories is reported with the first in
order, `"spam_indicators"`. -/
theorem C10_single_increment_first_category_witness :
    "spam_indicators" ∈ CATEGORY_ORDER ∧
    categoryMatches (lowerStr "spam the hack") "spam_indicators" = true ∧
    (((moderate_content SecState.init (fun _ => none) "spam the hack" "+15550004").2.moderationFlags "+15550004" =
        SecState.init.moderationFlags "+15550004" ∨
      (moderate_content SecState.init (fun _ => none) "spam the hack" "+15550004").2.moderationFlags "+15550004" =
        SecState.init.moderationFlags "+15550004" + 1) ∧
     (∀ c, c ∈ CATEGORY_ORDER → categoryMatches (lowerStr "spam the hack") c = true →
       SecState.init.moderationFlags "+15550004" + 1 < MAX_MODERATION_FLAGS →
       CATEGORY_ORDER.find? (fun c => categoryMatches (lowerStr "spam the hack") c)
         = some (moderate_content SecState.init (fun _ => none) "spam the hack" "+15550004").1.2)) :=
  ⟨by decide, by decide,
   C10_single_increment_first_category SecState.init (fun _ => none) "spam the hack" "+15550004"⟩

/-! ## `unblock_number` (claim C9) -/

/-- C9: for a blocked caller, `unblock_number` removes the caller from
the block set and zeroes the flag counter; for an already-unblocked
caller it is a no-op returning the state unchanged (and no error); and it
is idempotent: running it twice gives the same state as running it once. -/
theorem C9_unblock_idempotent (s : SecState) (phone : String) (hph : phone ≠ "") :
    (s.blockedNumbers phone = true →
      (unblock_number s phone).1.blockedNumbers phone = false ∧
      (unblock_number s phone).1.moderationFlags phone = 0) ∧
    (s.blockedNumbers phone = false → unblock_number s phone = (s, "was not blocked")) ∧
    (unblock_number (unblock_number s phone).1 phone).1 = (unblock_number s phone).1 := by
  by_cases hb : s.blockedNumbers phone
  · have h1 : unblock_number s phone =
        ({ callRateLimit := s.callRateLimit
           blockedNumbers := upd s.blockedNumbers phone false
           moderationFlags := upd s.moderationFlags phone 0 }, "unblocked") := by
      unfold unblock_number
      rw [if_neg hph, if_pos hb]
    refine ⟨fun _ => ⟨?_, ?_⟩, fun hnb => absurd hb (by simp [hnb]), ?_⟩
    · rw [h1]; simp [upd]
    · rw [h1]; simp [upd]
    · rw [h1]
      show (unblock_number
        { callRateLimit := s.callRateLimit
          blockedNumbers := upd s.blockedNumbers phone false
          moderationFlags := upd s.moderationFlags phone 0 } phone).1 = _
      unfold unblock_number
      rw [if_neg hph, if_neg (by simp [upd])]
  · have h1 : unblock_number s phone = (s, "was not blocked") := by
      unfold unblock_number
      rw [if_neg hph, if_neg hb]
    refine ⟨fun hbt => absurd hbt hb, fun _ => h1, ?_⟩
    rw [h1]
    show (unblock_number s phone).1 = s
    rw [h1]

/-- C9 witness: unblocking a concrete blocked caller with 3 flags clears
both, a second unblock is a no-op, and the two runs agree. -/
theorem C9_unblock_idempotent_witness :
    ("+15550005" : String) ≠ "" ∧
    (let s : SecState :=
      { callRateLimit := fun _ => []
        blockedNumbers := fun p => decide (p = "+15550005")
        moderationFlags := fun p => if p = "+15550005" then 3 else 0 }
     (s.blockedNumbers "+15550005" = true →
       (unblock_number s "+15550005").1.blockedNumbers "+15550005" = false ∧
       (unblock_number s "+15550005").1.moderationFlags "+15550005" = 0) ∧
     (s.blockedNumbers "+15550005" = false → unblock_number s "+15550005" = (s, "was not blocked")) ∧
     (unblock_number (unblock_number s "+15550005").1 "+15550005").1 = (unblock_number s "+15550005").1) :=
  ⟨by decide,
   C9_unblock_idempotent
     { callRateLimit := fun _ => []
       blockedNumbers := fun p => decide (p = "+15550005")
       moderationFlags := fun p => if p = "+15550005" then 3 else 0 }
     "+15550005" (by decide)⟩

/-! ## Language stickiness (claim C5) -/

/-- C5 counterexample: in a session whose first utterance matches the
Spanish markers, a second utterance matching the French markers leaves
the stored language `"es"` — but the language handed to
`create_multilingual_system_prompt` for that turn is the fresh detection
`"fr"`, contradicting the claim that the prompt language cannot change. -/
theorem C5_counterexample :
    (gen_lang_step (fun _ => "en") (fun _ => none) "CA1" "hola gracias").2 "CA1" = some "es" ∧
    (gen_lang_step (fun _ => "en")
      (gen_lang_step (fun _ => "en") (fun _ => none) "CA1" "hola gracias").2 "CA1" "bonjour merci").2 "CA1"
      = some "es" ∧
    (gen_lang_step (fun _ => "en")
      (gen_lang_step (fun _ => "en") (fun _ => none) "CA1" "hola gracias").2 "CA1" "bonjour merci").1
      = "fr" ∧
    (gen_lang_step (fun _ => "en")
      (gen_lang_step (fun _ => "en") (fun _ => none) "CA1" "hola gracias").2 "CA1" "bonjour merci").1
      ≠ "es" := by
  refine ⟨by decide, by decide, by decide, by decide⟩

/-- C5 (amended): the stored language code is decided once — set on the
first turn from that turn's detection and never overwritten afterwards —
but the language used to build each turn's system prompt is the fresh
detection of the current utterance, not the stored code (and in
`app_simple.py`'s TTS path the voice is the fixed `"Rachel"` default). -/
theorem C5_sticky_store_fresh_prompt (oracle : String → String) (langs : LangMap)
    (sid text : String) :
    (langs sid = none →
      (gen_lang_step oracle langs sid text).2 sid = some (detect_language oracle text)) ∧
    (∀ l, langs sid = some l → (gen_lang_step oracle langs sid text).2 = langs) ∧
    (gen_lang_step oracle langs sid text).1 = detect_language oracle text := by
  refine ⟨?_, ?_, ?_⟩
  · intro h
    unfold gen_lang_step
    rw [h]
    simp [updL]
  · intro l h
    unfold gen_lang_step
    rw [h]
  · cases h : langs sid <;> unfold gen_lang_step <;> rw [h]

/-- C5 witness: with `"es"` already stored for the session, a French
utterance leaves the store untouched while the prompt language is the
fresh `"fr"`. -/
theorem C5_sticky_store_fresh_prompt_witness :
    ((fun s => if s = "CA1" then some "es" else none : LangMap) "CA1" = some "es") ∧
    (((fun s => if s = "CA1" then some "es" else none : LangMap) "CA1" = none →
      (gen_lang_step (fun _ => "en") (fun s => if s = "CA1" then some "es" else none) "CA1" "bonjour merci").2 "CA1"
        = some (detect_language (fun _ => "en") "bonjour merci")) ∧
     (∀ l, (fun s => if s = "CA1" then some "es" else none : LangMap) "CA1" = some l →
      (gen_lang_step (fun _ => "en") (fun s => if s = "CA1" then some "es" else none) "CA1" "bonjour merci").2
        = (fun s => if s = "CA1" then some "es" else none)) ∧
     (gen_lang_step (fun _ => "en") (fun s => if s = "CA1" then some "es" else none) "CA1" "bonjour merci").1
        = detect_language (fun _ => "en") "bonjour merci") :=
  ⟨by decide,
   C5_sticky_store_fresh_prompt (fun _ => "en") (fun s => if s = "CA1" then some "es" else none)
     "CA1" "bonjour merci"⟩

/-! ## Conversation-history cap (claim C4) -/

/-- C4 counterexample: after six successful turns on a fresh call the
stored history holds 11 messages — more than the 10 the claim allows.
(The trim to 10 happens before the assistant reply is appended and
stored.) -/
theorem C4_counterexample :
    (((runTurns (fun _ => none) "CA1"
        [("u1", "a1"), ("u2", "a2"), ("u3", "a3"), ("u4", "a4"), ("u5", "a5"), ("u6", "a6")]) "CA1").getD
        []).length = 11 ∧
    ¬ (((runTurns (fun _ => none) "CA1"
        [("u1", "a1"), ("u2", "a2"), ("u3", "a3"), ("u4", "a4"), ("u5", "a5"), ("u6", "a6")]) "CA1").getD
        []).length ≤ 10 := by
  refine ⟨by decide, by decide⟩

/-- One successful turn keeps the stored history at ≤ 11 messages. -/
theorem gen_hist_update_le (hist : List Msg) (u a : String) (h : hist.length ≤ 11) :
    (gen_hist_update hist u a).length ≤ 11 := by
  unfold gen_hist_update gen_hist_trimmed
  by_cases hc : 10 < (hist ++ [Msg.mk Role.user u]).length
  · rw [if_pos hc]
    simp [lastN]
    simp at hc
    omega
  · rw [if_neg hc]
    simp at hc ⊢
    omega

theorem runTurns_le (sid : String) :
    ∀ (turns : List (String × String)) (histMap : HistMap),
      ((histMap sid).getD []).length ≤ 11 →
      (((runTurns histMap sid turns) sid).getD []).length ≤ 11 := by
  intro turns
  induction turns with
  | nil => intro hm h; simpa [runTurns] using h
  | cons p rest ih =>
    intro hm h
    obtain ⟨u, a⟩ := p
    simp only [runTurns]
    apply ih
    simp only [generate_ai_response, updH, if_pos rfl, Option.getD_some]
    exact gen_hist_update_le _ _ _ h

/-- C4 (amended): the stored conversation history for a call never holds
more than 11 messages after any number of successful turns (the 10-cap is
applied to the history passed to the completion service, before the
assistant reply is appended and stored); trimming drops the oldest
messages first — the kept part is a suffix; and a failed completion call
leaves the user message appended to the stored history untrimmed. -/
theorem C4_history_cap (hist : List Msg) (u a : String) (hlen : hist.length ≤ 11) :
    (gen_hist_update hist u a).length ≤ 11 ∧
    (gen_hist_trimmed hist u).length ≤ 10 ∧
    (gen_hist_trimmed hist u) <:+ (hist ++ [⟨Role.user, u⟩]) ∧
    (∀ (turns : List (String × String)) (sid : String),
      (((runTurns (fun _ => none) sid turns) sid).getD []).length ≤ 11) ∧
    (∀ (hm : HistMap) (sid : String),
      (generate_ai_response hm sid u none).2 sid = some (((hm sid).getD []) ++ [⟨Role.user, u⟩])) := by
  refine ⟨gen_hist_update_le hist u a hlen, ?_, ?_, ?_, ?_⟩
  · unfold gen_hist_trimmed
    by_cases hc : 10 < (hist ++ [Msg.mk Role.user u]).length
    · rw [if_pos hc]
      simp [lastN]
      simp at hc
      omega
    · rw [if_neg hc]
      simp at hc ⊢
      omega
  · unfold gen_hist_trimmed
    by_cases hc : 10 < (hist ++ [Msg.mk Role.user u]).length
    · rw [if_pos hc]
      exact List.drop_suffix _ _
    · rw [if_neg hc]
  · intro turns sid
    exact runTurns_le sid turns (fun _ => none) (by simp)
  · intro hm sid
    simp [generate_ai_response, updH]

/-- C4 witness: one turn on an empty history obeys the 11-message bound,
the 10-cap on the completion input, and suffix-trimming. -/
theorem C4_history_cap_witness :
    ([] : List Msg).length ≤ 11 ∧
    ((gen_hist_update [] "hi" "ok").length ≤ 11 ∧
     (gen_hist_trimmed [] "hi").length ≤ 10 ∧
     (gen_hist_trimmed [] "hi") <:+ ([] ++ [⟨Role.user, "hi"⟩]) ∧
     (∀ (turns : List (String × String)) (sid : String),
       (((runTurns (fun _ => none) sid turns) sid).getD []).length ≤ 11) ∧
     (∀ (hm : HistMap) (sid : String),
       (generate_ai_response hm sid "hi" none).2 sid = some (((hm sid).getD []) ++ [⟨Role.user, "hi"⟩]))) :=
  ⟨by decide, C4_history_cap [] "hi" "ok" (by decide)⟩

/-! ## Reservation cooldown (claim C6) -/

/-- `getItem v "name" = ok (jstr nm)` forces the membership check to
succeed with `true`. -/
theorem hasKey_of_getItem (v : JVal) (nm : String)
    (h : getItem v "name" = Except.ok (JVal.jstr nm)) : hasKey v "name" = Except.ok true := by
  cases v with
  | jnull => simp [getItem] at h
  | jbool b => simp [getItem] at h
  | jnum n => simp [getItem] at h
  | jstr s => simp [getItem] at h
  | jarr xs => simp [getItem] at h
  | jobj kvs =>
    cases hl : lookupKey "name" kvs with
    | none => simp [getItem, hl] at h
    | some x => simp [hasKey, hl]

/-- Under name-clean data, validation reduces to the pure cooldown check. -/
theorem validate_cooldown_only (data : JVal) (phone : String)
    (hnc : hasKey data "name" = Except.ok false ∨
           (∃ nm, getItem data "name" = Except.ok (JVal.jstr nm) ∧
                  inappropriateNameKeywords.any (fun k => strContains (lowerStr nm) k) = false))
    (rs : ResMap) (now : Nat) :
    validate_reservation_data data rs phone now =
      (match rs phone with
       | some lastRes =>
         if now - lastRes < RESERVATION_COOLDOWN then Except.ok (false, "too_frequent")
         else Except.ok (true, "")
       | none => Except.ok (true, "")) := by
  rcases hnc with h | ⟨nm, hg, hclean⟩
  · unfold validate_reservation_data
    rw [h]
    simp [bind, Except.bind, pure, Except.pure]
  · have hk := hasKey_of_getItem data nm hg
    unfold validate_reservation_data
    rw [hk]
    simp only [bind, Except.bind]
    rw [hg]
    simp [bind, Except.bind, pure, Except.pure, pyLower, hclean]

/-- C6: a successful validation stamps the caller's
`last_reservation_time` with `now` — exactly once, in the success branch
only; a failed validation returns the map unchanged, so within the
300-second cooldown a second attempt answers `Invalid("too_frequent")`
without resetting anything, and once the cooldown has elapsed the same
(otherwise-valid) draft validates again. -/
theorem C6_cooldown_once (resSt : ResMap) (data : JVal) (phone : String) (t0 t1 t2 : Nat)
    (hfree : resSt phone = none)
    (hnc : hasKey data "name" = Except.ok false ∨
           (∃ nm, getItem data "name" = Except.ok (JVal.jstr nm) ∧
                  inappropriateNameKeywords.any (fun k => strContains (lowerStr nm) k) = false))
    (hsoon : t1 - t0 < RESERVATION_COOLDOWN)
    (hlate : RESERVATION_COOLDOWN ≤ t2 - t0) :
    reservation_step resSt data phone t0 =
      Except.ok ((true, ""), fun x => if x = phone then some t0 else resSt x) ∧
    reservation_step (fun x => if x = phone then some t0 else resSt x) data phone t1 =
      Except.ok ((false, "too_frequent"), fun x => if x = phone then some t0 else resSt x) ∧
    reservation_step (fun x => if x = phone then some t0 else resSt x) data phone t2 =
      Except.ok ((true, ""),
        fun x => if x = phone then some t2 else (if x = phone then some t0 else resSt x)) := by
  have hv := validate_cooldown_only data phone hnc
  refine ⟨?_, ?_, ?_⟩
  · unfold reservation_step
    rw [hv resSt t0, hfree]
    simp [bind, Except.bind, pure, Except.pure]
  · unfold reservation_step
    rw [hv _ t1]
    simp [bind, Except.bind, pure, Except.pure, hsoon]
  · unfold reservation_step
    rw [hv _ t2]
    simp [bind, Except.bind, pure, Except.pure,
      (show ¬(t2 - t0 < RESERVATION_COOLDOWN) by omega)]

/-- C6 witness: a nameless draft from a fresh caller at time 1000, probed
again at 1100 (rejected, map unchanged) and at 1400 (valid again). -/
theorem C6_cooldown_once_witness :
    ((fun _ => none : ResMap) "+15550006" = none) ∧
    (reservation_step (fun _ => none) (JVal.jobj []) "+15550006" 1000 =
       Except.ok ((true, ""), fun x => if x = "+15550006" then some 1000 else none) ∧
     reservation_step (fun x => if x = "+15550006" then some 1000 else none) (JVal.jobj []) "+15550006" 1100 =
       Except.ok ((false, "too_frequent"), fun x => if x = "+15550006" then some 1000 else none) ∧
     reservation_step (fun x => if x = "+15550006" then some 1000 else none) (JVal.jobj []) "+15550006" 1400 =
       Except.ok ((true, ""),
         fun x => if x = "+15550006" then some 1400 else (if x = "+15550006" then some 1000 else none))) :=
  ⟨rfl, C6_cooldown_once (fun _ => none) (JVal.jobj []) "+15550006" 1000 1100 1400
    rfl (Or.inl rfl) (by decide) (by decide)⟩

/-! ## Analyzer extraction (claim C7) -/

theorem findChar_append_cons (ch : Char) (a b : List Char) (ha : ch ∉ a) :
    findChar ch (a ++ (ch :: b)) = some a.length := by
  induction a with
  | nil => simp [findChar]
  | cons x xs ih =>
    simp only [List.mem_cons, not_or] at ha
    simp [findChar, ha.1, ih ha.2, Ne.symm]

theorem rfindChar_append_cons (ch : Char) (a c : List Char) (hc : ch ∉ c) :
    rfindChar ch (a ++ (ch :: c)) = some a.length := by
  unfold rfindChar
  have hrev : (a ++ (ch :: c)).reverse = c.reverse ++ (ch :: a.reverse) := by
    simp
  rw [hrev, findChar_append_cons ch c.reverse a.reverse (by simpa using hc)]
  simp

theorem take_append_add {α : Type} (a : List α) (rest : List α) (n : Nat) :
    (a ++ rest).take (a.length + n) = a ++ rest.take n := by
  induction a with
  | nil => simp
  | cons x xs ih =>
    simp only [List.cons_append, List.length_cons]
    rw [show xs.length + 1 + n = (xs.length + n) + 1 by omega]
    simp [ih]

theorem drop_append_len {α : Type} (a rest : List α) :
    (a ++ rest).drop a.length = rest := by
  induction a with
  | nil => simp
  | cons x xs ih => simp

/-- Reduce `extractSpan` once both brace positions are known. -/
theorem extractSpan_eq_of (raw : String) (s e : Nat)
    (hf : findChar obrace raw.data = some s) (hr : rfindChar cbrace raw.data = some e) :
    extractSpan raw = String.mk ((raw.data.take (e + 1)).drop s) := by
  unfold extractSpan
  simp only []
  rw [hf, hr]

/-- The span taken by the extraction: from the first opening brace to the
last closing brace. -/
theorem extractSpan_split (a b c : List Char) (ha : obrace ∉ a) (hc : cbrace ∉ c) :
    extractSpan (String.mk (a ++ (obrace :: (b ++ (cbrace :: c))))) =
      String.mk (obrace :: (b ++ [cbrace])) := by
  have hf : findChar obrace (String.mk (a ++ (obrace :: (b ++ (cbrace :: c))))).data
      = some a.length :=
    findChar_append_cons obrace a (b ++ (cbrace :: c)) ha
  have hr : rfindChar cbrace (String.mk (a ++ (obrace :: (b ++ (cbrace :: c))))).data
      = some (a.length + (b.length + 1)) := by
    have hassoc : a ++ (obrace :: (b ++ (cbrace :: c))) = (a ++ (obrace :: b)) ++ (cbrace :: c) := by
      simp
    show rfindChar cbrace (a ++ (obrace :: (b ++ (cbrace :: c)))) = some (a.length + (b.length + 1))
    rw [hassoc, rfindChar_append_cons cbrace (a ++ (obrace :: b)) c hc]
    simp
  rw [extractSpan_eq_of _ _ _ hf hr]
  congr 1
  show (((a ++ (obrace :: (b ++ (cbrace :: c)))).take (a.length + (b.length + 1) + 1)).drop a.length) = _
  rw [show a.length + (b.length + 1) + 1 = a.length + (b.length + 2) by omega]
  rw [take_append_add a (obrace :: (b ++ (cbrace :: c))) (b.length + 2)]
  rw [drop_append_len a _]
  show obrace :: ((b ++ (cbrace :: c)).take (b.length + 1)) = _
  rw [take_append_add b (cbrace :: c) 1]
  rfl

/-- C7 (amended): for every behaviour of `json.loads` and every raw
completion text, the analyzer either returns the parsed value — exactly
when parsing the extracted span succeeded and Python's membership check
answered `true` for both `reservation_complete` and `sms_consent` (for a
non-dict value membership means substring or element containment, not a
dict-key lookup) — or returns the empty draft; and when the raw text has
an opening and a closing brace, the span handed to the parser runs from
the first opening brace to the last closing brace.  `analyze_interaction`
itself never raises: every internal failure yields the empty draft. -/
theorem C7_extraction_fallback (parse : String → Option JVal) (raw : String) :
    (analyze_interaction parse raw = emptyDraft ∨
     (∃ v, parse (extractSpan raw) = some v ∧
           analyze_interaction parse raw = v ∧
           hasKey v "reservation_complete" = Except.ok true ∧
           hasKey v "sms_consent" = Except.ok true)) ∧
    (∀ a b c : List Char, obrace ∉ a → cbrace ∉ c →
      raw = String.mk (a ++ (obrace :: (b ++ (cbrace :: c)))) →
      extractSpan raw = String.mk (obrace :: (b ++ [cbrace]))) := by
  constructor
  · cases hp : parse (extractSpan raw) with
    | none =>
      left
      unfold analyze_interaction
      simp only []
      rw [hp]
    | some v =>
      cases hk1 : hasKey v "reservation_complete" with
      | error e1 =>
        left
        unfold analyze_interaction
        simp only []
        rw [hp]
        simp [hk1]
      | ok b1 =>
        cases b1 with
        | false =>
          left
          unfold analyze_interaction
          simp only []
          rw [hp]
          simp [hk1]
        | true =>
          cases hk2 : hasKey v "sms_consent" with
          | error e2 =>
            left
            unfold analyze_interaction
            simp only []
            rw [hp]
            simp [hk1, hk2]
          | ok b2 =>
            cases b2 with
            | false =>
              left
              unfold analyze_interaction
              simp only []
              rw [hp]
              simp [hk1, hk2]
            | true =>
              right
              refine ⟨v, rfl, ?_, hk1, hk2⟩
              unfold analyze_interaction
              simp only []
              rw [hp]
              simp [hk1, hk2]
  · intro a b c ha hc hraw
    rw [hraw]
    exact extractSpan_split a b c ha hc

/-- C7 witness: a concrete text of the shape `a(b)c` with braces around
`b` is cut to the brace-delimited span. -/
theorem C7_extraction_fallback_witness :
    obrace ∉ ['a'] ∧ cbrace ∉ ['c'] ∧
    extractSpan (String.mk (['a'] ++ (obrace :: (['b'] ++ (cbrace :: ['c']))))) =
      String.mk (obrace :: (['b'] ++ [cbrace])) :=
  ⟨by decide, by decide,
   (C7_extraction_fallback parseStringLit
      (String.mk (['a'] ++ (obrace :: (['b'] ++ (cbrace :: ['c'])))))).2
     ['a'] ['b'] ['c'] (by decide) (by decide) rfl⟩

/-- C7 counterexample: the completion answering the bare JSON string
`"reservation_complete sms_consent"` (no braces) parses to a string
value; Python's `in` then finds both key names as substrings, so the
analyzer returns the string unchanged instead of the empty draft the
claim requires for a value with no such keys. -/
theorem C7_counterexample :
    extractSpan "\"reservation_complete sms_consent\"" = "\"reservation_complete sms_consent\"" ∧
    parseStringLit "\"reservation_complete sms_consent\""
      = some (JVal.jstr "reservation_complete sms_consent") ∧
    analyze_interaction parseStringLit "\"reservation_complete sms_consent\""
      = JVal.jstr "reservation_complete sms_consent" ∧
    analyze_interaction parseStringLit "\"reservation_complete sms_consent\"" ≠ emptyDraft :=
  ⟨rfl, rfl, rfl, fun h => JVal.noConfusion h⟩

/-! ## Exception safety of turn processing (claim C3) -/

/-- C3 (code evaluated at the failing input): a turn whose analyzer
output declares the reservation complete with `name: null` — exactly what
the extraction prompt prescribes for an unknown name — makes
`validate_reservation_data` call `.lower()` on `None`; `process_speech`
has no handler, so the `AttributeError` escapes to the telephony layer
instead of a spoken TwiML response. -/
theorem C3_null_name_uncaught_exception :
    process_speech
      { sec := SecState.init, hist := fun _ => none, langs := fun _ => none, resSt := fun _ => none }
      "CA9" "+15550009" "please reserve a spot for two" 95 (fun _ => "en")
      (some "Done, see you then!") parseFixture ANALYZER_RAW_NULL_NAME 1000
      = Except.error "AttributeError" := by
  rfl

/-! ## Spam detection key mismatch (claim C8) -/

/-- C8 (code evaluated at the failing input): after three identical user
turns stored for call SID `"CA8"` (completion failures leave exactly the
user messages), the stored history satisfies the spam condition — yet
`moderate_content` for the caller `"+15550008"` looks the history up
under the phone number, finds nothing, and answers safe with the state
untouched.  Re-keying the same history under the phone number (what the
lookup expects) does trigger `"spam_detected"`, isolating the key
mismatch as the cause. -/
theorem C8_spam_key_mismatch :
    spamCond ((threeIdenticalTurns "CA8").getD []) = true ∧
    threeIdenticalTurns "+15550008" = none ∧
    moderate_content SecState.init threeIdenticalTurns "hello there" "+15550008"
      = ((true, ""), SecState.init) ∧
    (moderate_content SecState.init
        (updH (fun _ => none) "+15550008" ((threeIdenticalTurns "CA8").getD []))
        "hello there" "+15550008").1 = (false, "spam_detected") := by
  refine ⟨by decide, rfl, rfl, rfl⟩

end RestaurantAgent
